import Mathlib

/-!
Verification development for the Threads.net scraper (`threads_scraper.py`).

The Python source is shallowly embedded below: each Lean definition mirrors
one function (or a clearly delimited code fragment) of the source.  Effectful
browser/network calls are modelled by explicit inputs (sequences of height
readings, poll observations, candidate records) and explicit state passing;
machine behaviour that the claims do not touch (screenshots, logging, sleeps)
is elided, as it does not influence the data or control flow being verified.
-/

/-- One scraped record, as produced by `_extract_post_data`: the five fields
`text`, `timestamp`, `stats`, `images`, `url`.  Missing page elements yield
the empty-string / empty-list defaults, so every record has all five fields. -/
structure Record where
  text : String
  timestamp : String
  stats : List String
  images : List String
  url : String
deriving DecidableEq

/-- Crawl-session state: the two independent collections `self.posts` and
`self.replies` of `ThreadsScraper`. -/
structure Session where
  posts : List Record
  replies : List Record
deriving DecidableEq

/-- The session at construction time: both collections empty. -/
def emptySession : Session := ⟨[], []⟩

/-- Truthiness test `post_data.get('text') or post_data.get('images')` from
the first guard of `_should_save_post`: an empty string and an empty list are
both falsy in Python, so the guard passes exactly when `text` is non-empty or
`images` is non-empty. -/
def hasContent (post : Record) : Bool :=
  !(post.text == "" && post.images.isEmpty)

/-- The duplicate scan inside `_should_save_post`: some existing record of the
collection has the same `text` and the same `timestamp` as the candidate. -/
def isDuplicate (collection : List Record) (post : Record) : Bool :=
  collection.any (fun existing =>
    existing.text == post.text && existing.timestamp == post.timestamp)

/-- Embedding of `_should_save_post(post_data, is_replies)`: reject a record
with falsy `text` and falsy `images`; otherwise reject exactly when the
collection selected by `is_replies` already holds a record with the same
`(text, timestamp)` pair. -/
def shouldSavePost (s : Session) (post : Record) (is_replies : Bool) : Bool :=
  if !hasContent post then false
  else
    let collection := if is_replies then s.replies else s.posts
    if isDuplicate collection post then false
    else true

/-- Embedding of `_save_post(post_data, is_replies)`: append the record to the
collection selected by `is_replies`, leaving the other untouched. -/
def savePost (s : Session) (post : Record) (is_replies : Bool) : Session :=
  if is_replies then ⟨s.posts, s.replies ++ [post]⟩
  else ⟨s.posts ++ [post], s.replies⟩

/-- The save gate as executed per article in `_scroll_and_extract`:
`if self._should_save_post(...): self._save_post(...)`. -/
def processCandidate (s : Session) (post : Record) (is_replies : Bool) : Session :=
  if shouldSavePost s post is_replies then savePost s post is_replies else s

/-- One `EXTRACTING` visit of `_scroll_and_extract`: the extracted candidate
records are funnelled through the save gate in encounter order. -/
def processAll (s : Session) (cands : List Record) (is_replies : Bool) : Session :=
  cands.foldl (fun s c => processCandidate s c is_replies) s

/-- The collection of the session selected by `is_replies`. -/
def collOf (s : Session) (is_replies : Bool) : List Record :=
  if is_replies then s.replies else s.posts

/-- Records of a collection whose `(text, timestamp)` pair equals `p`. -/
def filterPair (p : String × String) (collection : List Record) : List Record :=
  collection.filter (fun r => r.text == p.1 && r.timestamp == p.2)

/-- Substring containment, the Python `needle in hay` test on strings:
some index of `hay` starts an occurrence of `needle`. -/
def strContains (hay needle : String) : Bool :=
  (List.range (hay.data.length + 1)).any
    (fun i => needle.data.isPrefixOf (hay.data.drop i))

/-- ASCII lowercasing of one character, the effect of Python `str.lower()`
on the ASCII range (the only range the scraper's indicator and URL tests
exercise). -/
def lowerChar (c : Char) : Char :=
  if 65 ≤ c.toNat && c.toNat ≤ 90 then Char.ofNat (c.toNat + 32) else c

/-- ASCII model of Python `s.lower()`. -/
def lowerStr (s : String) : String :=
  ⟨s.data.map lowerChar⟩

/-- Model of Python `s.strip()` restricted to the common whitespace
characters: leading and trailing whitespace removed. -/
def pyStrip (l : List Char) : List Char :=
  ((l.dropWhile Char.isWhitespace).reverse.dropWhile Char.isWhitespace).reverse

/-- Digit-run parser underlying `pyInt?`: a non-empty all-digit character
list denotes the base-10 number it spells; anything else is no parse. -/
def digitsToNat? (l : List Char) : Option Nat :=
  if l.isEmpty then none
  else if l.all Char.isDigit then
    some (l.foldl (fun n c => 10 * n + (c.toNat - 48)) 0)
  else none

/-- Model of Python `int(s)` on a string: surrounding whitespace is stripped,
one optional leading sign is allowed before a non-empty digit run, and any
other shape raises `ValueError`, modelled as `none`. -/
def pyInt? (s : String) : Option Int :=
  match pyStrip s.data with
  | [] => none
  | c :: rest =>
    if c = '-' then (digitsToNat? rest).map (fun n => -(n : Int))
    else if c = '+' then (digitsToNat? rest).map (fun n => (n : Int))
    else (digitsToNat? (c :: rest)).map (fun n => (n : Int))

/-- Evaluation of `int(img.get_attribute(name) or 0)` in `_is_small_image`:
a missing attribute (`None`) and the empty string are falsy, so `or 0` turns
them into the integer 0; any other string goes through `int`, whose
`ValueError` is modelled as `none`. -/
def attrInt (a : Option String) : Option Int :=
  match a with
  | none => some 0
  | some s => if s == "" then some 0 else pyInt? s

/-- Embedding of `_is_small_image(img)`.  The `try` block computes `width`
first, then `height`, then tests `0 < width < 50 or 0 < height < 50`; a
`ValueError` raised by either conversion aborts the whole block, the
`except` clause swallows it, and the function falls through to `return
False`. -/
def isSmallImage (width height : Option String) : Bool :=
  match attrInt width with
  | none => false
  | some w =>
    match attrInt height with
    | none => false
    | some h => (0 < w && w < 50) || (0 < h && h < 50)

/-- The `profile_indicators` list of `_extract_images`. -/
def profileIndicators : List String :=
  ["profile_pic", "profile-pic", "avatar", "profile", "/p/", "_pp_", "profile_image"]

/-- Embedding of `_is_profile_picture(src, alt, indicators)`: the source URL
is lowercased before the indicator scan, while `alt` is scanned as passed in
(the caller `_extract_images` has already lowercased it). -/
def isProfilePicture (src alt : String) (indicators : List String) : Bool :=
  indicators.any (fun indicator => strContains (lowerStr src) indicator) ||
  indicators.any (fun indicator => strContains alt indicator) ||
  strContains alt "profile" ||
  alt == "avatar"

/-- The per-candidate keep decision of the loop body of `_extract_images`
(the spec's `is_content_image`): a falsy `src` skips the image, then a
profile-picture match skips it, then a small-image match skips it; otherwise
it is kept.  `alt` is defaulted to the empty string and lowercased before
the profile check, exactly as in `alt = (img.get_attribute("alt") or
"").lower()`. -/
def keepImage (src : Option String) (alt : Option String)
    (width height : Option String) : Bool :=
  match src with
  | none => false
  | some s =>
    if s == "" then false
    else
      let a := lowerStr (alt.getD "")
      if isProfilePicture s a profileIndicators then false
      else if isSmallImage width height then false
      else true

/-- What `_wait_for_content` can observe in one iteration of its polling
loop: whether some selector of its list matches at least one element, the
length of `driver.page_source`, and the current URL. -/
structure PollObs where
  matched : Bool
  pageLen : Nat
  url : String

/-- Embedding of `_is_blocked_page()` applied to a URL: the lowercased
current URL contains `"login"` or `"blocked"`. -/
def isBlockedPage (url : String) : Bool :=
  strContains (lowerStr url) "login" || strContains (lowerStr url) "blocked"

/-- Embedding of the polling loop of `_wait_for_content(timeout)`.  The
timeout is modelled by the length of the observation list (one entry per
poll).  Within one poll the code first scans the selector list — returning
`True` as soon as a selector matches while the page source exceeds 1000
characters — and only afterwards consults `_is_blocked_page`, returning
`False` if it fires; otherwise it sleeps and polls again.  An exhausted
timeout returns `False`. -/
def waitForContent : List PollObs → Bool
  | [] => false
  | o :: rest =>
    if o.matched && decide (o.pageLen > 1000) then true
    else if isBlockedPage o.url then false
    else waitForContent rest

/-- Running state of the `while scroll_attempts < max_scroll_attempts` loop
of `_scroll_and_extract`.  `session` carries the two collections; `calls`
counts invocations of `_scroll_page` (the loop's per-iteration scroll step,
the value the attempt counter is compared against the cap through);
`scrollActions` counts physical scroll commands issued to the browser (the
scroll-to-bottom of each `_scroll_page` call plus its forced nudge when the
height was unchanged); `hitBottom` records whether the loop ended through
`_scroll_page` returning `False` (reached bottom, the spec's `DONE` by
stall) rather than by exhausting the cap; `idx` is the index of the next
page-height reading to consume. -/
structure LoopState where
  session : Session
  calls : Nat
  scrollActions : Nat
  hitBottom : Bool
  idx : Nat
deriving DecidableEq

/-- Embedding of the body of `_scroll_and_extract`'s while-loop together
with `_scroll_page`.  `heights i` is the i-th reading of
`document.body.scrollHeight` (reading 0 is taken before the loop as
`last_height` and is never updated); `articles i` is the list of candidate
records extracted during the i-th loop iteration; `fuel` is
`max_scroll_attempts - scroll_attempts`, so the loop stops when it reaches
0.  One iteration extracts and gate-saves the candidates, then performs
`_scroll_page`: scroll (one action), read a height; if it equals
`last_height`, nudge (a second action) and read again; if that still equals
`last_height`, return `False` — the loop breaks (reached bottom).
Otherwise the attempt counter is incremented and the loop repeats. -/
def scrollGo (heights : Nat → Nat) (articles : Nat → List Record)
    (is_replies : Bool) (lastHeight : Nat) : Nat → LoopState → LoopState
  | 0, st => st
  | fuel + 1, st =>
    let s := processAll st.session (articles st.calls) is_replies
    let newHeight := heights st.idx
    if newHeight = lastHeight then
      let newHeight2 := heights (st.idx + 1)
      if newHeight2 = lastHeight then
        ⟨s, st.calls + 1, st.scrollActions + 2, true, st.idx + 2⟩
      else
        scrollGo heights articles is_replies lastHeight fuel
          ⟨s, st.calls + 1, st.scrollActions + 2, false, st.idx + 2⟩
    else
      scrollGo heights articles is_replies lastHeight fuel
        ⟨s, st.calls + 1, st.scrollActions + 1, false, st.idx + 1⟩

/-- Embedding of one collection pass of `_scroll_and_extract(is_replies)`:
`last_height` is read before the loop (reading 0), the attempt counter
starts at 0, the cap is `self.max_scrolls * 2`, and height readings continue
from index 1. -/
def scrollAndExtract (heights : Nat → Nat) (articles : Nat → List Record)
    (is_replies : Bool) (s : Session) (max_scrolls : Nat) : LoopState :=
  scrollGo heights articles is_replies (heights 0) (max_scrolls * 2)
    ⟨s, 0, 0, false, 1⟩

/-- Single-character replacement by a string, the effect of Python
`text.replace(x, s)` when the pattern `x` is one character: every
occurrence of `x` is expanded to `s`, all other characters pass through. -/
def replaceCharBy (x : Char) (s : List Char) (l : List Char) : List Char :=
  l.flatMap (fun c => if c = x then s else [c])

/-- The final comprehension of `_clean_text`: a character of code point at
least 32, or a newline, carriage return or tab, passes through; every other
control character becomes a space. -/
def cleanChar (c : Char) : Char :=
  if 32 ≤ c.toNat || c = Char.ofNat 10 || c = Char.ofNat 13 || c = Char.ofNat 9 then c
  else ' '

/-- Embedding of `_clean_text(text)` at the character level.  A falsy
(empty) input returns the empty string; otherwise the Unicode line and
paragraph separators become spaces, then the XML special characters are
entity-escaped — `&` first, so later escapes are not re-escaped — and
finally control characters below 32 other than newline, carriage return and
tab become spaces. -/
def cleanText (text : List Char) : List Char :=
  if text.isEmpty then []
  else
    let t := replaceCharBy (Char.ofNat 0x2028) [' '] text
    let t := replaceCharBy (Char.ofNat 0x2029) [' '] t
    let t := replaceCharBy (Char.ofNat 38) ("&amp;".data) t
    let t := replaceCharBy (Char.ofNat 60) ("&lt;".data) t
    let t := replaceCharBy (Char.ofNat 62) ("&gt;".data) t
    let t := replaceCharBy (Char.ofNat 34) ("&quot;".data) t
    let t := replaceCharBy (Char.ofNat 39) ("&#39;".data) t
    t.map cleanChar

/-- The URLs handed to `download_image` by `_create_image_elements`: the
slice `image_urls[:max_images]` with the default `max_images = 3` used at
its only call site. -/
def createImageElementsFetched (image_urls : List String) : List String :=
  image_urls.take 3

/-- The URLs handed to `requests.get` by the image loop of
`_write_post_markdown`: every entry of `post['images']`, with no cap. -/
def writePostMarkdownFetched (images : List String) : List String :=
  images

example : hasContent ⟨"", "t", [], [], ""⟩ = false := by decide
example : hasContent ⟨"", "t", [], ["u"], ""⟩ = true := by decide
example :
    processAll emptySession
      [⟨"hi", "2024", [], [], "u1"⟩, ⟨"hi", "2024", [], [], "u2"⟩, ⟨"hi", "2024", [], [], "u3"⟩]
      false
    = ⟨[⟨"hi", "2024", [], [], "u1"⟩], []⟩ := by decide
example : strContains "abcd" "bc" = true := by decide
example : strContains "abcd" "ca" = false := by decide
example : pyInt? "10" = some 10 := by decide
example : pyInt? "x" = none := by decide
example : isSmallImage (some "10") (some "x") = false := by decide
example : isSmallImage (some "10") (some "60") = true := by decide
example : isSmallImage (some "100") none = false := by decide
example : isSmallImage none (some "10") = true := by decide
example : keepImage (some "http://x/img.jpg") (some "photo") (some "100") none = true := by decide
example : keepImage (some "http://x/Avatar.jpg") (some "photo") (some "100") none = false := by decide
example : isBlockedPage "https://www.threads.net/Login" = true := by decide
example : waitForContent [⟨true, 2000, "https://www.threads.net/login"⟩] = true := by decide
example : waitForContent [⟨false, 2000, "https://www.threads.net/login"⟩, ⟨true, 2000, "x"⟩] = false := by decide
example : waitForContent [⟨true, 50, "x"⟩] = false := by decide
example :
    scrollAndExtract (fun _ => 100) (fun _ => []) false emptySession 5
    = ⟨emptySession, 1, 2, true, 3⟩ := by decide
example :
    (scrollAndExtract (fun i => i) (fun _ => []) false emptySession 2).calls = 4 := by decide
example :
    (scrollAndExtract (fun i => i) (fun _ => []) false emptySession 2).hitBottom = false := by decide
example :
    cleanText "a<b".data = "a&lt;b".data := by decide
example :
    cleanText ([Char.ofNat 7] ++ "x&".data) = (" x&amp;".data) := by decide

/-- The attempt counter of the scroll loop never exceeds its starting value
plus the available fuel: each loop iteration consumes one unit of fuel and
performs exactly one `_scroll_page` call. -/
theorem scrollGo_calls_le (heights : Nat → Nat) (articles : Nat → List Record)
    (is_replies : Bool) (lastHeight : Nat) :
    ∀ (fuel : Nat) (st : LoopState),
      (scrollGo heights articles is_replies lastHeight fuel st).calls ≤ st.calls + fuel := by
  intro fuel
  induction fuel with
  | zero => intro st; simp [scrollGo]
  | succ n ih =>
    intro st
    simp only [scrollGo]
    split
    · split
      · simp only [LoopState.mk.injEq]; omega
      · exact le_trans (ih _) (by simp only []; omega)
    · exact le_trans (ih _) (by simp only []; omega)

/-- When every height reading after the initial one differs from the initial
reading, `_scroll_page` always reports "keep scrolling": the loop never
breaks, consumes all its fuel, and performs exactly one scroll action per
call (the nudge never fires). -/
theorem scrollGo_always_changing (heights : Nat → Nat) (articles : Nat → List Record)
    (is_replies : Bool) (hchange : ∀ i, 0 < i → heights i ≠ heights 0) :
    ∀ (fuel : Nat) (st : LoopState), 0 < st.idx → st.hitBottom = false →
      (scrollGo heights articles is_replies (heights 0) fuel st).calls = st.calls + fuel ∧
      (scrollGo heights articles is_replies (heights 0) fuel st).scrollActions
        = st.scrollActions + fuel ∧
      (scrollGo heights articles is_replies (heights 0) fuel st).hitBottom = false := by
  intro fuel
  induction fuel with
  | zero => intro st hidx hbot; simp [scrollGo, hbot]
  | succ n ih =>
    intro st hidx hbot
    have hne : heights st.idx ≠ heights 0 := hchange st.idx hidx
    simp only [scrollGo, if_neg hne]
    have := ih ⟨processAll st.session (articles st.calls) is_replies,
      st.calls + 1, st.scrollActions + 1, false, st.idx + 1⟩ (by simp) (by simp)
    simp at this
    refine ⟨?_, ?_, this.2.2⟩ <;> omega

/-- C1: whenever, at some iteration of the scroll-extract loop, the height
measured after the scroll equals the loop's recorded baseline height
(`last_height`, the reading the code compares every measurement against) and
the extra forced nudge's measurement equals it as well, `_scroll_page`
returns `False` and the loop ends in the reached-bottom state (`DONE`);
and on a page whose height readings are all 100 — baseline 100, next
measurement 100, nudge measurement also 100 — any pass with a positive
scroll budget ends in `DONE` after exactly 2 physical scroll actions (one
loop iteration: the scroll plus its nudge). -/
theorem stall_detection_transitions_to_done :
    (∀ (heights : Nat → Nat) (articles : Nat → List Record) (is_replies : Bool)
        (lastHeight fuel : Nat) (st : LoopState),
        heights st.idx = lastHeight → heights (st.idx + 1) = lastHeight →
        scrollGo heights articles is_replies lastHeight (fuel + 1) st
          = ⟨processAll st.session (articles st.calls) is_replies,
             st.calls + 1, st.scrollActions + 2, true, st.idx + 2⟩)
    ∧ (∀ (articles : Nat → List Record) (is_replies : Bool) (s : Session) (b : Nat),
        0 < b →
        scrollAndExtract (fun _ => 100) articles is_replies s b
          = ⟨processAll s (articles 0) is_replies, 1, 2, true, 3⟩) := by
  constructor
  · intro heights articles is_replies lastHeight fuel st h1 h2
    simp [scrollGo, h1, h2]
  · intro articles is_replies s b hb
    obtain ⟨k, hk⟩ : ∃ k, b * 2 = k + 1 := ⟨b * 2 - 1, by omega⟩
    rw [scrollAndExtract, hk]
    simp [scrollGo]

/-- Witness for `stall_detection_transitions_to_done` at scroll budget 1 and
no extracted articles. -/
theorem stall_detection_transitions_to_done_witness :
    scrollAndExtract (fun _ => 100) (fun _ => []) false emptySession 1
      = ⟨emptySession, 1, 2, true, 3⟩ := by
  have h := stall_detection_transitions_to_done.2 (fun _ => []) false emptySession 1
    (by decide)
  simpa using h

/-- C2: one collection pass performs at most `2 * max_scrolls` calls of
`_scroll_page`, and when every height reading differs from the baseline
(the page keeps reporting changing height) the pass uses the full cap —
exactly `2 * max_scrolls` scroll attempts, with exactly one physical scroll
each — and ends without a reached-bottom signal, i.e. `DONE` is forced by
the cap alone. -/
theorem scroll_attempts_capped (heights : Nat → Nat) (articles : Nat → List Record)
    (is_replies : Bool) (s : Session) (b : Nat) :
    (scrollAndExtract heights articles is_replies s b).calls ≤ 2 * b
    ∧ ((∀ i, 0 < i → heights i ≠ heights 0) →
        (scrollAndExtract heights articles is_replies s b).calls = 2 * b
        ∧ (scrollAndExtract heights articles is_replies s b).scrollActions = 2 * b
        ∧ (scrollAndExtract heights articles is_replies s b).hitBottom = false) := by
  constructor
  · have h := scrollGo_calls_le heights articles is_replies (heights 0) (b * 2)
      ⟨s, 0, 0, false, 1⟩
    rw [scrollAndExtract]
    simpa [Nat.mul_comm] using h
  · intro hchange
    have h := scrollGo_always_changing heights articles is_replies hchange (b * 2)
      ⟨s, 0, 0, false, 1⟩ (by simp) (by simp)
    rw [scrollAndExtract]
    simpa [Nat.mul_comm] using h

/-- Witness for `scroll_attempts_capped` with budget 5 and strictly growing
heights: exactly 10 scroll attempts are performed. -/
theorem scroll_attempts_capped_witness :
    (scrollAndExtract (fun i => i) (fun _ => []) false emptySession 5).calls = 2 * 5 := by
  have h := (scroll_attempts_capped (fun i => i) (fun _ => []) false emptySession 5).2
    (fun i hi => Nat.pos_iff_ne_zero.mp hi)
  exact h.1

/-- The gate `_should_save_post` computed in one expression: the record has
content and is not a duplicate of the selected collection. -/
theorem shouldSavePost_eq (s : Session) (c : Record) (b : Bool) :
    shouldSavePost s c b = (hasContent c && !isDuplicate (collOf s b) c) := by
  cases b <;> simp [shouldSavePost, collOf]

/-- The duplicate scan succeeds exactly when the collection already holds a
record with the candidate's `(text, timestamp)` pair. -/
theorem isDuplicate_iff (coll : List Record) (c : Record) :
    isDuplicate coll c = true ↔ ∃ e ∈ coll, e.text = c.text ∧ e.timestamp = c.timestamp := by
  simp [isDuplicate, List.any_eq_true, Bool.and_eq_true, beq_iff_eq]

/-- A collection holds no record with pair `p` exactly when `filterPair p`
of it is empty. -/
theorem filterPair_eq_nil_iff (p : String × String) (coll : List Record) :
    filterPair p coll = [] ↔ ∀ e ∈ coll, ¬(e.text = p.1 ∧ e.timestamp = p.2) := by
  simp [filterPair, List.filter_eq_nil_iff, Bool.and_eq_true, beq_iff_eq]

/-- The per-collection view of the gate-and-append step iterated over a
candidate list: this is what `processAll` does to the collection selected by
`is_replies` (proved in `collOf_processAll`). -/
def processColl (coll : List Record) (cands : List Record) : List Record :=
  cands.foldl (fun coll c =>
    if hasContent c && !isDuplicate coll c then coll ++ [c] else coll) coll

/-- `processAll` acts on the selected collection as `processColl` and leaves
the other collection of the session untouched. -/
theorem collOf_processAll (cands : List Record) :
    ∀ (s : Session) (b : Bool),
      collOf (processAll s cands b) b = processColl (collOf s b) cands
      ∧ collOf (processAll s cands b) (!b) = collOf s (!b) := by
  induction cands with
  | nil => intro s b; simp [processAll, processColl]
  | cons c cs ih =>
    intro s b
    have hstep : processAll s (c :: cs) b = processAll (processCandidate s c b) cs b := by
      simp [processAll]
    have hsel : collOf (processCandidate s c b) b
        = (if hasContent c && !isDuplicate (collOf s b) c then collOf s b ++ [c]
           else collOf s b) := by
      rw [processCandidate, shouldSavePost_eq]
      cases b <;> split <;> simp_all [savePost, collOf]
    have hoth : collOf (processCandidate s c b) (!b) = collOf s (!b) := by
      rw [processCandidate]
      cases b <;> split <;> simp [savePost, collOf]
    constructor
    · rw [hstep, (ih (processCandidate s c b) b).1, hsel]
      simp [processColl]
    · rw [hstep, (ih (processCandidate s c b) b).2, hoth]

/-- Records of pair `p` surviving the gated appends: if the collection
already holds one, nothing changes; otherwise exactly the first contentful
candidate with pair `p` (if any) is appended, and all later ones are
rejected as duplicates. -/
theorem filterPair_processColl (p : String × String) :
    ∀ (cands coll : List Record),
      filterPair p (processColl coll cands)
        = filterPair p coll
          ++ (if (filterPair p coll).isEmpty
              then (cands.find? (fun c =>
                hasContent c && (c.text == p.1 && c.timestamp == p.2))).toList
              else []) := by
  intro cands
  induction cands with
  | nil => intro coll; cases h : filterPair p coll <;> simp [processColl, h]
  | cons c cs ih =>
    intro coll
    have hstep : processColl coll (c :: cs)
        = processColl (if hasContent c && !isDuplicate coll c then coll ++ [c] else coll) cs := by
      simp [processColl]
    rw [hstep]
    by_cases hp : (c.text == p.1 && c.timestamp == p.2) = true
    · have hpair : c.text = p.1 ∧ c.timestamp = p.2 := by
        simpa [Bool.and_eq_true, beq_iff_eq] using hp
      by_cases hc : hasContent c = true
      · by_cases hd : isDuplicate coll c = true
        · have hne : ¬(filterPair p coll).isEmpty := by
            obtain ⟨e, he, het, hets⟩ := (isDuplicate_iff coll c).mp hd
            intro hemp
            rw [List.isEmpty_iff] at hemp
            exact (filterPair_eq_nil_iff p coll).mp hemp e he
              ⟨het.trans hpair.1, hets.trans hpair.2⟩
          rw [if_neg (by simp [hd]), ih coll, if_neg hne, if_neg hne]
        · have hnil : filterPair p coll = [] := by
            rw [filterPair_eq_nil_iff]
            intro e he ⟨het, hets⟩
            exact hd ((isDuplicate_iff coll c).mpr
              ⟨e, he, het.trans hpair.1.symm, hets.trans hpair.2.symm⟩)
          have hfil : filterPair p (coll ++ [c]) = [c] := by
            rw [filterPair, List.filter_append, ← filterPair, hnil]
            simp [filterPair, hp]
          rw [if_pos (by simp [hc, hd]), ih (coll ++ [c]), hfil,
            List.find?_cons_of_pos _ (by simp [hc, hp]), hnil]
          simp
      · rw [if_neg (by simp [hc]), ih coll,
          List.find?_cons_of_neg _ (by simp [hc])]
    · have hfilc : ∀ l, filterPair p (l ++ [c]) = filterPair p l := by
        intro l
        rw [filterPair, List.filter_append, ← filterPair]
        simp [filterPair, hp]
      have hgoal : filterPair p (if hasContent c && !isDuplicate coll c then coll ++ [c]
          else coll) = filterPair p coll := by
        split
        · exact hfilc coll
        · rfl
      rw [ih, hgoal, List.find?_cons_of_neg _ (by simp [hp])]

/-- C3: for either collection and any sequence of candidate records gated
through `_should_save_post` before `_save_post`, the records of the final
collection carrying a given `(text, timestamp)` pair are exactly the first
encountered contentful candidate with that pair (kept whole, its `url`,
`stats` and `images` included) — so at most one record with that pair is
ever present, and later candidates sharing the pair are rejected no matter
how their other fields differ. -/
theorem dedup_keeps_first_record_per_pair (cands : List Record) (b : Bool)
    (p : String × String) :
    filterPair p (collOf (processAll emptySession cands b) b)
      = (cands.find? (fun c =>
          hasContent c && (c.text == p.1 && c.timestamp == p.2))).toList
    ∧ (filterPair p (collOf (processAll emptySession cands b) b)).length ≤ 1 := by
  have h := (collOf_processAll cands emptySession b).1
  have hcoll : collOf emptySession b = [] := by cases b <;> rfl
  rw [h, hcoll]
  rw [filterPair_processColl p cands []]
  constructor
  · simp [filterPair]
  · simp only [filterPair, List.filter_nil, List.isEmpty_nil, if_pos, List.nil_append]
    cases List.find? (fun c => hasContent c && (c.text == p.1 && c.timestamp == p.2)) cands <;>
      simp

/-- C4: the save gate rejects every record whose `text` is empty and whose
`images` list is empty, and consequently such a record never enters either
the posts or the replies collection, whatever candidate stream is processed
and for both the posts pass and the replies pass. -/
theorem empty_record_never_saved :
    (∀ (s : Session) (c : Record) (b : Bool), c.text = "" → c.images = [] →
        shouldSavePost s c b = false)
    ∧ (∀ (cands : List Record) (s : Session) (b : Bool) (r : Record),
        r.text = "" → r.images = [] → r ∉ s.posts → r ∉ s.replies →
        r ∉ (processAll s cands b).posts ∧ r ∉ (processAll s cands b).replies) := by
  have hgate : ∀ (s : Session) (c : Record) (b : Bool), c.text = "" → c.images = [] →
      shouldSavePost s c b = false := by
    intro s c b ht hi
    have : hasContent c = false := by simp [hasContent, ht, hi]
    simp [shouldSavePost, this]
  refine ⟨hgate, ?_⟩
  intro cands
  induction cands with
  | nil => intro s b r ht hi hp hr; exact ⟨hp, hr⟩
  | cons c cs ih =>
    intro s b r ht hi hp hr
    have hstep : processAll s (c :: cs) b = processAll (processCandidate s c b) cs b := by
      simp [processAll]
    rw [hstep]
    have hrc : shouldSavePost s c b = true → r ≠ c := by
      intro hsave heq
      rw [shouldSavePost_eq] at hsave
      have hcc : hasContent c = true := by
        cases h : hasContent c
        · rw [h] at hsave; simp at hsave
        · rfl
      rw [← heq] at hcc
      simp [hasContent, ht, hi] at hcc
    apply ih (processCandidate s c b) b r ht hi
    · rw [processCandidate]
      split
      · rename_i hsave
        cases b
        · intro hmem
          simp [savePost] at hmem
          rcases hmem with h | h
          · exact hp h
          · exact hrc hsave h
        · simpa [savePost] using hp
      · exact hp
    · rw [processCandidate]
      split
      · rename_i hsave
        cases b
        · simpa [savePost] using hr
        · intro hmem
          simp [savePost] at hmem
          rcases hmem with h | h
          · exact hr h
          · exact hrc hsave h
      · exact hr

/-- Witness for `empty_record_never_saved`: a concretely empty record fed to
the gate is not in the resulting posts collection. -/
theorem empty_record_never_saved_witness :
    (⟨"", "", [], [], ""⟩ : Record)
      ∉ (processAll emptySession [⟨"", "", [], [], ""⟩] false).posts := by
  exact (empty_record_never_saved.2 [⟨"", "", [], [], ""⟩] emptySession false
    ⟨"", "", [], [], ""⟩ rfl rfl (by simp [emptySession]) (by simp [emptySession])).1

/-- C9: appending through the gate to one collection leaves the other
collection of the session unchanged for an entire candidate stream, and the
gate for the replies collection consults only the replies collection — a
contentful candidate that is not duplicated among the replies is accepted
there regardless of what the posts collection holds. -/
theorem save_gate_frame_between_collections :
    (∀ (s : Session) (cands : List Record),
        (processAll s cands true).posts = s.posts
        ∧ (processAll s cands false).replies = s.replies)
    ∧ (∀ (s : Session) (c : Record), hasContent c = true →
        isDuplicate s.replies c = false → shouldSavePost s c true = true) := by
  constructor
  · intro s cands
    have h1 := (collOf_processAll cands s true).2
    have h2 := (collOf_processAll cands s false).2
    simp [collOf] at h1 h2
    exact ⟨h1, h2⟩
  · intro s c hc hd
    rw [shouldSavePost_eq]
    simp [collOf, hc, hd]

/-- Witness for `save_gate_frame_between_collections`: a candidate whose
`(text, timestamp)` pair already sits in `posts` is still accepted into
`replies`. -/
theorem save_gate_frame_between_collections_witness :
    shouldSavePost ⟨[⟨"hi", "t", [], [], "u"⟩], []⟩ ⟨"hi", "t", [], [], "v"⟩ true = true := by
  exact save_gate_frame_between_collections.2 ⟨[⟨"hi", "t", [], [], "u"⟩], []⟩
    ⟨"hi", "t", [], [], "v"⟩ (by decide) (by decide)

/-- C6: any case-insensitive occurrence of a configured profile indicator in
the image's `src` or in its `alt` text makes the extractor drop the image,
whatever its `width` and `height` attributes are. -/
theorem indicator_match_rejects_image (src alt ind : String) (w h : Option String)
    (hmem : ind ∈ profileIndicators)
    (hhit : strContains (lowerStr src) ind = true ∨ strContains (lowerStr alt) ind = true) :
    keepImage (some src) (some alt) w h = false := by
  have hprof : isProfilePicture src (lowerStr alt) profileIndicators = true := by
    simp only [isProfilePicture, Bool.or_eq_true, List.any_eq_true]
    rcases hhit with hs | ha
    · exact Or.inl (Or.inl (Or.inl ⟨ind, hmem, hs⟩))
    · exact Or.inl (Or.inl (Or.inr ⟨ind, hmem, ha⟩))
  simp [keepImage, hprof]

/-- Witness for `indicator_match_rejects_image`: an image whose source URL
contains `Avatar` is dropped despite large dimensions. -/
theorem indicator_match_rejects_image_witness :
    keepImage (some "http://x/Avatar9.jpg") (some "photo") (some "400") (some "400") = false := by
  exact indicator_match_rejects_image "http://x/Avatar9.jpg" "photo" "avatar"
    (some "400") (some "400") (by decide) (Or.inl (by decide))

/-- Counterexample to C5 as stated: the width attribute `"10"` is present
and parses to the positive integer 10, which is below 50, yet because the
height attribute `"x"` raises `ValueError`, `_is_small_image`'s whole check
is aborted and the image is kept rather than rejected. -/
theorem small_image_unparseable_counterexample :
    pyInt? "10" = some 10 ∧ ((0 : Int) < 10 ∧ (10 : Int) < 50) ∧ pyInt? "x" = none
    ∧ isSmallImage (some "10") (some "x") = false
    ∧ keepImage (some "http://x/a.jpg") (some "photo") (some "10") (some "x") = true := by
  decide

/-- C5 amended: when both dimension attributes convert (a missing or empty
attribute counting as 0), the size check rejects exactly when either
converted value is positive and below 50; an image with one dimension
present and at least 50 and the other absent is kept; but a present
dimension that fails to parse as an integer aborts the whole check, so the
image is then always kept — even when the other dimension is present,
parseable, positive and below 50. -/
theorem small_image_check_amended :
    (∀ (sw sh : String) (wi hi : Int), pyInt? sw = some wi → pyInt? sh = some hi →
        isSmallImage (some sw) (some sh)
          = ((decide (0 < wi) && decide (wi < 50)) || (decide (0 < hi) && decide (hi < 50))))
    ∧ (∀ (s : String) (n : Int), pyInt? s = some n → 50 ≤ n →
        isSmallImage (some s) none = false ∧ isSmallImage none (some s) = false)
    ∧ (∀ (w : Option String) (sh : String), pyInt? sh = none → sh ≠ "" →
        isSmallImage w (some sh) = false)
    ∧ (∀ (sw : String) (h : Option String), pyInt? sw = none → sw ≠ "" →
        isSmallImage (some sw) h = false) := by
  have hempty : pyInt? "" = none := by decide
  have hne : ∀ (s : String) (n : Int), pyInt? s = some n → (s == "") = false := by
    intro s n hp
    cases h : s == ""
    · rfl
    · rw [(beq_iff_eq).mp h, hempty] at hp
      exact Option.noConfusion hp
  refine ⟨?_, ?_, ?_, ?_⟩
  · intro sw sh wi hi hw hh
    simp [isSmallImage, attrInt, hne sw wi hw, hne sh hi hh, hw, hh]
  · intro s n hp h50
    have hb := hne s n hp
    constructor
    · simp [isSmallImage, attrInt, hb, hp]
      omega
    · simp [isSmallImage, attrInt, hb, hp]
      omega
  · intro w sh hp hneq
    have hb : (sh == "") = false := by
      cases h : sh == ""
      · rfl
      · exact absurd ((beq_iff_eq).mp h) hneq
    have hsh : attrInt (some sh) = none := by simp [attrInt, hb, hp]
    cases hw : attrInt w
    · unfold isSmallImage
      rw [hw]
    · unfold isSmallImage
      rw [hw, hsh]
  · intro sw h hp hneq
    have hb : (sw == "") = false := by
      cases hx : sw == ""
      · rfl
      · exact absurd ((beq_iff_eq).mp hx) hneq
    simp [isSmallImage, attrInt, hb, hp]

/-- Witness for `small_image_check_amended`: both dimensions parse, the
width 10 is positive and small, so the check rejects. -/
theorem small_image_check_amended_witness :
    isSmallImage (some "10") (some "60") = true := by
  have h := small_image_check_amended.1 "10" "60" 10 60 (by decide) (by decide)
  rw [h]
  decide

/-- Counterexample to C7 as stated: a poll whose URL contains `login` but at
which a content selector matches and the markup floor is met makes
`_wait_for_content` return `True` — the readiness scan runs before the
blocked-page check, so the blocked URL does not override it. -/
theorem blocked_poll_counterexample :
    isBlockedPage "https://www.threads.net/login" = true
    ∧ waitForContent [⟨true, 2000, "https://www.threads.net/login"⟩] = true := by
  decide

/-- C7 amended: at any poll at which the page is not ready (no selector
matched, or the markup size floor is unmet), a URL indicating a login or
block redirect makes the gate return `false` immediately, consuming no
further polls; readiness is checked first within a poll, so a blocked URL
together with a matching selector and a met size floor returns `true`
instead. -/
theorem blocked_poll_fast_fail_amended (o : PollObs) (rest : List PollObs)
    (hblocked : isBlockedPage o.url = true)
    (hnotready : ¬(o.matched = true ∧ o.pageLen > 1000)) :
    waitForContent (o :: rest) = false := by
  have hcond : (o.matched && decide (o.pageLen > 1000)) = false := by
    cases hm : o.matched
    · rfl
    · simp only [Bool.true_and]
      simp [hm] at hnotready
      simpa using hnotready
  rw [waitForContent, hcond, if_neg (by simp), if_pos hblocked]

/-- Witness for `blocked_poll_fast_fail_amended`: a blocked first poll with
no selector match returns `false` even though a later poll would be ready. -/
theorem blocked_poll_fast_fail_amended_witness :
    waitForContent [⟨false, 2000, "https://www.threads.net/login"⟩, ⟨true, 2000, "x"⟩]
      = false := by
  exact blocked_poll_fast_fail_amended ⟨false, 2000, "https://www.threads.net/login"⟩
    [⟨true, 2000, "x"⟩] (by decide) (by decide)

/-- Counterexample to C8 as stated: for a record with four image URLs the
paginated-document renderer fetches only the first three, but the markdown
renderer fetches all four — its per-record download sequence is not capped. -/
theorem markdown_image_cap_counterexample :
    createImageElementsFetched ["a", "b", "c", "d"] = ["a", "b", "c"]
    ∧ writePostMarkdownFetched ["a", "b", "c", "d"] = ["a", "b", "c", "d"] := by
  decide

/-- C8 amended: the paginated-document renderer downloads at most 3 images
per record (the `image_urls[:max_images]` slice), while the markdown
renderer downloads every image URL of the record, with no per-record cap. -/
theorem renderer_image_downloads_amended (image_urls : List String) :
    (createImageElementsFetched image_urls).length ≤ 3
    ∧ writePostMarkdownFetched image_urls = image_urls := by
  constructor
  · simp [createImageElementsFetched]
  · rfl

/-- Provenance of a character surviving `replaceCharBy`: it comes from the
replacement string, or it was already present and is not the replaced
character. -/
theorem mem_replaceCharBy {c x : Char} {s l : List Char}
    (h : c ∈ replaceCharBy x s l) : c ∈ s ∨ (c ∈ l ∧ c ≠ x) := by
  rw [replaceCharBy] at h
  obtain ⟨a, ha, hin⟩ := List.mem_flatMap.mp h
  by_cases hax : a = x
  · rw [if_pos hax] at hin
    exact Or.inl hin
  · rw [if_neg hax] at hin
    simp only [List.mem_singleton] at hin
    exact Or.inr ⟨hin ▸ ha, hin ▸ hax⟩

/-- C10: every character of `_clean_text`'s output is neither a raw `<`,
`>`, double quote nor single quote (those were entity-escaped, `&` having
been escaped first so no escape sequence is corrupted), and every output
character below code point 32 is a newline, carriage return or tab (all
other control characters were replaced by a space). -/
theorem clean_text_output_charset (l : List Char) (c : Char)
    (hc : c ∈ cleanText l) :
    (c ≠ Char.ofNat 60 ∧ c ≠ Char.ofNat 62 ∧ c ≠ Char.ofNat 34 ∧ c ≠ Char.ofNat 39)
    ∧ (c.toNat < 32 → c = Char.ofNat 10 ∨ c = Char.ofNat 13 ∨ c = Char.ofNat 9) := by
  by_cases hl : l.isEmpty
  · rw [cleanText, if_pos hl] at hc
    exact absurd hc (List.not_mem_nil c)
  · rw [cleanText, if_neg hl] at hc
    obtain ⟨a, ha, hca⟩ := List.mem_map.mp hc
    have hfour : a ≠ Char.ofNat 60 ∧ a ≠ Char.ofNat 62 ∧ a ≠ Char.ofNat 34
        ∧ a ≠ Char.ofNat 39 := by
      rcases mem_replaceCharBy ha with h39 | ⟨h34m, hne39⟩
      · exact (by decide : ∀ x ∈ "&#39;".data, x ≠ Char.ofNat 60 ∧ x ≠ Char.ofNat 62
          ∧ x ≠ Char.ofNat 34 ∧ x ≠ Char.ofNat 39) a h39
      · rcases mem_replaceCharBy h34m with h34 | ⟨h62m, hne34⟩
        · exact (by decide : ∀ x ∈ "&quot;".data, x ≠ Char.ofNat 60 ∧ x ≠ Char.ofNat 62
            ∧ x ≠ Char.ofNat 34 ∧ x ≠ Char.ofNat 39) a h34
        · rcases mem_replaceCharBy h62m with h62 | ⟨h60m, hne62⟩
          · exact (by decide : ∀ x ∈ "&gt;".data, x ≠ Char.ofNat 60 ∧ x ≠ Char.ofNat 62
              ∧ x ≠ Char.ofNat 34 ∧ x ≠ Char.ofNat 39) a h62
          · rcases mem_replaceCharBy h60m with h60 | ⟨_, hne60⟩
            · exact (by decide : ∀ x ∈ "&lt;".data, x ≠ Char.ofNat 60 ∧ x ≠ Char.ofNat 62
                ∧ x ≠ Char.ofNat 34 ∧ x ≠ Char.ofNat 39) a h60
            · exact ⟨hne60, hne62, hne34, hne39⟩
    rw [cleanChar] at hca
    by_cases hcond : (32 ≤ a.toNat || a = Char.ofNat 10 || a = Char.ofNat 13
        || a = Char.ofNat 9) = true
    · rw [if_pos hcond] at hca
      subst hca
      refine ⟨hfour, ?_⟩
      intro hlt
      simp only [Bool.or_eq_true, decide_eq_true_eq] at hcond
      rcases hcond with ((h32 | h10) | h13) | h9
      · omega
      · exact Or.inl h10
      · exact Or.inr (Or.inl h13)
      · exact Or.inr (Or.inr h9)
    · rw [if_neg hcond] at hca
      subst hca
      refine ⟨by decide, ?_⟩
      intro hlt
      exact absurd hlt (by decide)

/-- Witness for `clean_text_output_charset`: the ampersand of the escape
sequence produced for the input `"<"` satisfies both output guarantees. -/
theorem clean_text_output_charset_witness :
    ((Char.ofNat 38 ≠ Char.ofNat 60 ∧ Char.ofNat 38 ≠ Char.ofNat 62
        ∧ Char.ofNat 38 ≠ Char.ofNat 34 ∧ Char.ofNat 38 ≠ Char.ofNat 39)
      ∧ ((Char.ofNat 38).toNat < 32 →
          Char.ofNat 38 = Char.ofNat 10 ∨ Char.ofNat 38 = Char.ofNat 13
          ∨ Char.ofNat 38 = Char.ofNat 9)) := by
  exact clean_text_output_charset "<".data (Char.ofNat 38) (by decide)
